import Mathlib

/-!
Shallow embedding of `molpal/models/mpnn/predict.py`: batched inference
with a pretrained molecular property-prediction network, with optional
paired mean/variance (uncertainty) outputs and optional inverse scaling of
the outputs by a fitted scaler.
-/

set_option autoImplicit false
set_option linter.unusedVariables false

namespace Molpal

/-- Matrix of prediction values, standing in for an `np.ndarray`: a list of
`N` rows.  Integer values stand in for floats; every claim settled here is
about slicing, shapes, ordering and exact elementwise arithmetic, never
about rounding or numerical precision. -/
abbrev Mat : Type := List (List ℤ)

/-- The array `X` is `n × m`: `n` rows, every row of length `m`. -/
def HasShape (X : Mat) (n m : Nat) : Prop :=
  X.length = n ∧ ∀ row ∈ X, row.length = m

instance (X : Mat) (n m : Nat) : Decidable (HasShape X n m) := by
  unfold HasShape; infer_instance

/-- One `MoleculeDatapoint(smiles=[smi])`: the constructor stores the list
of molecule strings it is given, and only that list matters here. -/
abbrev MoleculeDatapoint : Type := List String

/-- One `MoleculeDataset`: the list of datapoints it was built from. -/
abbrev MoleculeDataset : Type := List MoleculeDatapoint

/-- Record of one forward pass through the model: whether gradient
tracking was enabled and whether the module was in training mode at the
moment of the call. -/
structure ForwardCall where
  gradEnabled : Bool
  training : Bool
deriving DecidableEq, Repr

/-- The externally supplied `nn.Module`: an abstract forward function from
a batch of datapoints (via its batch graph) to a matrix of per-datapoint
outputs, together with the mutable module state this file touches — the
`training` flag, the device placement, and the parameters (abstract values,
carried to express that inference never updates them). -/
structure NNModel where
  forward : List MoleculeDatapoint → Mat
  params : List ℤ
  training : Bool
  device : Option Nat

/-- Call `model.eval()`: switch the module to evaluation mode; parameters,
device and the forward function are untouched. -/
def NNModel.eval (m : NNModel) : NNModel := { m with training := false }

/-- Call `model.to(d)`: move the module to GPU device `d`. -/
def NNModel.to (m : NNModel) (d : Nat) : NNModel := { m with device := some d }

/-- Modelled from the spec: `StandardScaler` comes from the vendored
`..chemprop.data` package, whose source is not part of this file.  Per the
spec it carries per-task fit statistics ("the scaler's fit statistics",
"the scaler's per-task standard deviation") used to de-normalize model
outputs "back to physical units". -/
structure StandardScaler where
  means : List ℤ
  stds : List ℤ
deriving DecidableEq, Repr

/-- Modelled from the spec: the scaler's inverse transform maps scaled
predictions back to physical units per task, sending entry `x` of column
`j` to `x * stds[j] + means[j]`. -/
def StandardScaler.inverse_transform (s : StandardScaler) (X : Mat) : Mat :=
  X.map fun row => List.zipWith (fun p x => x * p.2 + p.1) (s.means.zip s.stds) row

/-- Numpy broadcasting of `scaler.stds**2 * variances`: every row of `X`
is multiplied columnwise by the square of the per-task standard
deviations. -/
def scaleVariances (stds : List ℤ) (X : Mat) : Mat :=
  X.map fun row => List.zipWith (fun s v => s ^ 2 * v) stds row

/-- Elements of `l` at even positions 0, 2, 4, …: one row of the numpy
slice `preds[:, 0::2]`. -/
def everyOther {α : Type} : List α → List α
  | [] => []
  | [x] => [x]
  | x :: _ :: rest => x :: everyOther rest

/-- The slice `preds[:, 0::2]`: even-indexed columns of `X`. -/
def evenCols (X : Mat) : Mat := X.map everyOther

/-- The slice `preds[:, 1::2]`: odd-indexed columns of `X`. -/
def oddCols (X : Mat) : Mat := X.map fun row => everyOther row.tail

/-- The call `np.concatenate(mats)` along the row axis: numpy raises
`ValueError: need at least one array to concatenate` on an empty sequence,
and otherwise stacks all rows in order. -/
def npConcatenate (mats : List Mat) : Except String Mat :=
  match mats with
  | [] => .error "need at least one array to concatenate"
  | _ => .ok mats.flatten

/-- Worker for `chunkList`, structurally recursive on a fuel argument so
that it evaluates inside the kernel; each step consumes at least one list
element, so fuel `l.length` never runs out. -/
def chunkGo {α : Type} (n : Nat) : Nat → List α → List (List α)
  | _, [] => []
  | 0, _ :: _ => []
  | fuel + 1, x :: xs =>
      if n = 0 then []
      else (x :: xs.take (n - 1)) :: chunkGo n fuel (xs.drop (n - 1))

/-- Split a list into consecutive chunks of `n` elements, the last chunk
possibly shorter; chunking with `n = 0` yields no chunks (the real loader
rejects a non-positive batch size before ever yielding one). -/
def chunkList {α : Type} (n : Nat) (l : List α) : List (List α) :=
  chunkGo n l.length l

/-- Modelled from the spec: `MoleculeDataLoader(dataset=…, batch_size=…,
num_workers=…)` is the external data-loading utility the spec delegates
batching to; with shuffling off it iterates batches of the dataset in
order, each of `batchSize` datapoints (the last possibly shorter).  The
worker count does not affect the values produced. -/
def MoleculeDataLoader (dataset : MoleculeDataset) (batchSize : Nat)
    (numWorkers : Nat) : List (List MoleculeDatapoint) :=
  chunkList batchSize dataset

/-- Value returned by `_predict`: a single predictions array, or the
`(means, variances)` pair in the uncertainty case. -/
inductive PredOutput : Type
  | single (preds : Mat)
  | withUnc (means variances : Mat)
deriving DecidableEq, Repr

instance : DecidableEq (Except String PredOutput) := fun a b =>
  match a, b with
  | .error x, .error y =>
      if h : x = y then .isTrue (by rw [h]) else .isFalse (by intro hc; cases hc; exact h rfl)
  | .error _, .ok _ => .isFalse (by intro hc; cases hc)
  | .ok _, .error _ => .isFalse (by intro hc; cases hc)
  | .ok x, .ok y =>
      if h : x = y then .isTrue (by rw [h]) else .isFalse (by intro hc; cases hc; exact h rfl)

/-- Embedding of `_predict`: switch the model to evaluation mode, run one
forward pass per batch inside the `torch.no_grad()` block (recording, for
each pass, the gradient flag and the module's `training` flag at call
time), concatenate the per-batch outputs along the row axis, then
post-process.  The result carries the value `_predict` returns (or the
error `np.concatenate` raises), the module state as `_predict` leaves it,
and the trace of forward calls. -/
def _predict (model : NNModel) (data_loader : List (List MoleculeDatapoint))
    (uncertainty : Bool) (scaler : Option StandardScaler) :
    Except String PredOutput × NNModel × List ForwardCall :=
  let model := model.eval
  let calls := data_loader.map fun _ => ForwardCall.mk false model.training
  let pred_batches := data_loader.map fun batch => model.forward batch
  match npConcatenate pred_batches with
  | .error e => (.error e, model, calls)
  | .ok preds =>
    if uncertainty then
      let means := evenCols preds
      let variances := oddCols preds
      match scaler with
      | some s =>
          (.ok (.withUnc (s.inverse_transform means) (scaleVariances s.stds variances)),
           model, calls)
      | none => (.ok (.withUnc means variances), model, calls)
    else
      match scaler with
      | some s => (.ok (.single (s.inverse_transform preds)), model, calls)
      | none => (.ok (.single preds), model, calls)

/-- Dataset built inside `predict`: one `MoleculeDatapoint(smiles=[smi])`
per input string, in input order. -/
def predictDataset (smis : List String) : MoleculeDataset :=
  smis.map fun smi => [smi]

/-- Embedding of `predict`: move the model to GPU device 0 when `use_gpu`,
build the dataset of single-molecule datapoints, wrap it in a data loader,
and delegate to `_predict` with the progress bar disabled. -/
def predict (model : NNModel) (smis : List String) (batch_size : Nat)
    (ncpu : Nat) (uncertainty : Bool) (scaler : Option StandardScaler)
    (use_gpu : Bool) :
    Except String PredOutput × NNModel × List ForwardCall :=
  let model := if use_gpu then model.to 0 else model
  let test_data := predictDataset smis
  let data_loader := MoleculeDataLoader test_data batch_size ncpu
  _predict model data_loader uncertainty scaler

/-- Concatenated raw model output of a prediction run, before any
de-normalization: the per-batch forward outputs stacked in loader order. -/
def rawPreds (model : NNModel) (data_loader : List (List MoleculeDatapoint)) : Mat :=
  (data_loader.map fun batch => model.forward batch).flatten

/-- Data loader built inside `predict` for a given input of molecule
strings: batches of the single-molecule datapoints, in input order. -/
def predictLoader (smis : List String) (batch_size ncpu : Nat) :
    List (List MoleculeDatapoint) :=
  MoleculeDataLoader (predictDataset smis) batch_size ncpu

/-- Concatenated raw model output of a `predict` run, before any
de-normalization. -/
def predictRaw (model : NNModel) (smis : List String) (batch_size ncpu : Nat)
    (use_gpu : Bool) : Mat :=
  rawPreds (if use_gpu then model.to 0 else model) (predictLoader smis batch_size ncpu)

/-- Every array in the output has exactly `n` rows. -/
def PredOutput.rowsEq : PredOutput → Nat → Prop
  | .single p, n => p.length = n
  | .withUnc m v, n => m.length = n ∧ v.length = n

instance (o : PredOutput) (n : Nat) : Decidable (o.rowsEq n) := by
  cases o <;> (unfold PredOutput.rowsEq; infer_instance)

/-! Helper lemmas shared by the claim theorems. -/

theorem everyOther_length {α : Type} : ∀ l : List α, (everyOther l).length = (l.length + 1) / 2
  | [] => by simp [everyOther]
  | [_] => by simp [everyOther]
  | _ :: _ :: rest => by
      simp only [everyOther, List.length_cons, everyOther_length rest]
      omega

theorem everyOther_tail_length {α : Type} (l : List α) :
    (everyOther l.tail).length = l.length / 2 := by
  rw [everyOther_length]
  cases l <;> simp

theorem chunkGo_flatten {α : Type} (n : Nat) : ∀ (fuel : Nat) (l : List α),
    l.length ≤ fuel → (chunkGo (n + 1) fuel l).flatten = l
  | _, [], _ => by simp [chunkGo]
  | 0, x :: xs, h => by simp at h
  | fuel + 1, x :: xs, h => by
      have ih : (chunkGo (n + 1) fuel (xs.drop n)).flatten = xs.drop n := by
        refine chunkGo_flatten n fuel (xs.drop n) ?_
        simp only [List.length_drop]
        simp only [List.length_cons] at h
        omega
      simp only [chunkGo, if_neg (Nat.succ_ne_zero n), Nat.add_sub_cancel,
        List.flatten_cons, ih, List.cons_append, List.take_append_drop]

theorem chunkList_flatten {α : Type} (n : Nat) (l : List α) :
    (chunkList (n + 1) l).flatten = l :=
  chunkGo_flatten n l.length l (Nat.le_refl _)

theorem rawPreds_length (model : NNModel) (loader : List (List MoleculeDatapoint))
    (h : ∀ b, (model.forward b).length = b.length) :
    (rawPreds model loader).length = loader.flatten.length := by
  unfold rawPreds
  rw [List.length_flatten, List.length_flatten, List.map_map]
  exact congrArg List.sum (List.map_congr_left fun b _ => h b)

theorem rawPreds_cols (model : NNModel) (loader : List (List MoleculeDatapoint))
    (M : Nat) (h : ∀ b, ∀ row ∈ model.forward b, row.length = M) :
    ∀ row ∈ rawPreds model loader, row.length = M := by
  intro row hr
  unfold rawPreds at hr
  rw [List.mem_flatten] at hr
  obtain ⟨mat, hm, hrow⟩ := hr
  rw [List.mem_map] at hm
  obtain ⟨b, _, rfl⟩ := hm
  exact h b row hrow

theorem forward_if_gpu (model : NNModel) (gpu : Bool) :
    (if gpu then model.to 0 else model).forward = model.forward := by
  cases gpu <;> rfl

theorem predictRaw_eq (model : NNModel) (smis : List String) (bs ncpu : Nat) (gpu : Bool) :
    predictRaw model smis bs ncpu gpu = rawPreds model (predictLoader smis bs ncpu) := by
  unfold predictRaw rawPreds
  rw [funext fun b => congrFun (forward_if_gpu model gpu) b]

theorem predictRaw_rows (model : NNModel) (smis : List String) (k ncpu : Nat) (gpu : Bool)
    (h : ∀ b, (model.forward b).length = b.length) :
    (predictRaw model smis (k + 1) ncpu gpu).length = smis.length := by
  rw [predictRaw_eq, rawPreds_length model _ h]
  unfold predictLoader MoleculeDataLoader
  rw [chunkList_flatten]
  simp [predictDataset]

theorem predictRaw_cols (model : NNModel) (smis : List String) (bs ncpu : Nat) (gpu : Bool)
    (M : Nat) (h : ∀ b, ∀ row ∈ model.forward b, row.length = M) :
    ∀ row ∈ predictRaw model smis bs ncpu gpu, row.length = M := by
  rw [predictRaw_eq]
  exact rawPreds_cols model _ M h

theorem predictRaw_shape (model : NNModel) (smis : List String) (k ncpu : Nat) (gpu : Bool)
    (M : Nat) (h1 : ∀ b, (model.forward b).length = b.length)
    (h2 : ∀ b, ∀ row ∈ model.forward b, row.length = M) :
    HasShape (predictRaw model smis (k + 1) ncpu gpu) smis.length M :=
  ⟨predictRaw_rows model smis k ncpu gpu h1, predictRaw_cols model smis (k + 1) ncpu gpu M h2⟩

theorem evenCols_shape (X : Mat) (n m : Nat) (h : HasShape X n m) :
    HasShape (evenCols X) n ((m + 1) / 2) := by
  obtain ⟨hn, hm⟩ := h
  refine ⟨by simpa [evenCols] using hn, ?_⟩
  intro row hr
  rw [evenCols, List.mem_map] at hr
  obtain ⟨r, hr', rfl⟩ := hr
  rw [everyOther_length, hm r hr']

theorem oddCols_shape (X : Mat) (n m : Nat) (h : HasShape X n m) :
    HasShape (oddCols X) n (m / 2) := by
  obtain ⟨hn, hm⟩ := h
  refine ⟨by simpa [oddCols] using hn, ?_⟩
  intro row hr
  rw [oddCols, List.mem_map] at hr
  obtain ⟨r, hr', rfl⟩ := hr
  rw [everyOther_tail_length, hm r hr']

theorem inverse_transform_shape (s : StandardScaler) (X : Mat) (n m : Nat)
    (h : HasShape X n m) (h1 : s.means.length = m) (h2 : s.stds.length = m) :
    HasShape (s.inverse_transform X) n m := by
  obtain ⟨hn, hm⟩ := h
  refine ⟨by simpa [StandardScaler.inverse_transform] using hn, ?_⟩
  intro row hr
  rw [StandardScaler.inverse_transform, List.mem_map] at hr
  obtain ⟨r, hr', rfl⟩ := hr
  rw [List.length_zipWith, List.length_zip, h1, h2, hm r hr']
  simp

theorem _predict_model (model : NNModel) (loader : List (List MoleculeDatapoint))
    (u : Bool) (sc : Option StandardScaler) :
    (_predict model loader u sc).2.1 = model.eval := by
  cases loader with
  | nil => rfl
  | cons b bs => cases u <;> cases sc <;> rfl

theorem _predict_calls (model : NNModel) (loader : List (List MoleculeDatapoint))
    (u : Bool) (sc : Option StandardScaler) :
    (_predict model loader u sc).2.2 = loader.map fun _ => ForwardCall.mk false false := by
  cases loader with
  | nil => rfl
  | cons b bs => cases u <;> cases sc <;> rfl

theorem predict_fst_eq (model : NNModel) (a : String) (ss : List String) (k ncpu : Nat)
    (u : Bool) (sc : Option StandardScaler) (gpu : Bool) :
    (predict model (a :: ss) (k + 1) ncpu u sc gpu).1 =
      Except.ok (
        let preds := predictRaw model (a :: ss) (k + 1) ncpu gpu
        match u, sc with
        | true, some s => PredOutput.withUnc (s.inverse_transform (evenCols preds))
            (scaleVariances s.stds (oddCols preds))
        | true, none => PredOutput.withUnc (evenCols preds) (oddCols preds)
        | false, some s => PredOutput.single (s.inverse_transform preds)
        | false, none => PredOutput.single preds) := by
  cases u <;> cases sc <;> rfl

/-! Concrete instances used by witnesses and counterexamples. -/

/-- Concrete model: one output row `[1, 2]` (two tasks) per input
datapoint. -/
def constModel2 : NNModel where
  forward := fun b => b.map fun _ => [(1 : ℤ), 2]
  params := [7]
  training := true
  device := none

/-- Concrete model: one output row `[1, 2, 3]` (three tasks) per input
datapoint. -/
def constModel3 : NNModel where
  forward := fun b => b.map fun _ => [(1 : ℤ), 2, 3]
  params := [7]
  training := true
  device := none

theorem constModel2_rows : ∀ b, (constModel2.forward b).length = b.length :=
  fun b => List.length_map b _

theorem constModel2_cols : ∀ b, ∀ row ∈ constModel2.forward b, row.length = 2 := by
  intro b row hr
  simp only [constModel2, List.mem_map] at hr
  obtain ⟨x, hx, rfl⟩ := hr
  rfl

theorem constModel3_rows : ∀ b, (constModel3.forward b).length = b.length :=
  fun b => List.length_map b _

theorem constModel3_cols : ∀ b, ∀ row ∈ constModel3.forward b, row.length = 3 := by
  intro b row hr
  simp only [constModel3, List.mem_map] at hr
  obtain ⟨x, hx, rfl⟩ := hr
  rfl

/-! The claim theorems. -/

/-- C1 (counterexample): a prediction run with the uncertainty flag set and
a scaler supplied whose returned pair is not the pair of even/odd column
slices of the raw output: the raw output is `[[1, 2]]`, whose slices are
`[[1]]` and `[[2]]`, but the run returns `[[8]]` and `[[18]]` because the
scaler de-normalizes both slices. -/
theorem claim1_counterexample :
    (predict constModel2 ["C"] 1 1 true (some ⟨[5], [3]⟩) false).1 ≠
      Except.ok (PredOutput.withUnc (evenCols (predictRaw constModel2 ["C"] 1 1 false))
        (oddCols (predictRaw constModel2 ["C"] 1 1 false))) := by decide

/-- C1 (amended): for every prediction run with the uncertainty flag set
and no scaler supplied, the result is the pair of the even-indexed and
odd-indexed column slices of the N×M concatenated raw model output, each
of shape N×(M/2) when M is even. -/
theorem claim1_uncertainty_pair_raw_slices (model : NNModel) (smis : List String)
    (k ncpu : Nat) (gpu : Bool) (M : Nat)
    (hne : smis ≠ [])
    (h1 : ∀ b, (model.forward b).length = b.length)
    (h2 : ∀ b, ∀ row ∈ model.forward b, row.length = M)
    (hM : M % 2 = 0) :
    (predict model smis (k + 1) ncpu true none gpu).1 =
      Except.ok (PredOutput.withUnc (evenCols (predictRaw model smis (k + 1) ncpu gpu))
        (oddCols (predictRaw model smis (k + 1) ncpu gpu))) ∧
    HasShape (evenCols (predictRaw model smis (k + 1) ncpu gpu)) smis.length (M / 2) ∧
    HasShape (oddCols (predictRaw model smis (k + 1) ncpu gpu)) smis.length (M / 2) := by
  obtain ⟨a, ss, rfl⟩ := List.exists_cons_of_ne_nil hne
  refine ⟨predict_fst_eq model a ss k ncpu true none gpu, ?_, ?_⟩
  · have h := evenCols_shape _ _ _ (predictRaw_shape model (a :: ss) k ncpu gpu M h1 h2)
    rwa [show (M + 1) / 2 = M / 2 by omega] at h
  · exact oddCols_shape _ _ _ (predictRaw_shape model (a :: ss) k ncpu gpu M h1 h2)

/-- Witness for the amended C1: three molecules, batch size 2, a model
with two output tasks. -/
theorem claim1_witness :
    (predict constModel2 ["C", "N", "O"] 2 1 true none false).1 =
      Except.ok (PredOutput.withUnc (evenCols (predictRaw constModel2 ["C", "N", "O"] 2 1 false))
        (oddCols (predictRaw constModel2 ["C", "N", "O"] 2 1 false))) ∧
    HasShape (evenCols (predictRaw constModel2 ["C", "N", "O"] 2 1 false)) 3 1 ∧
    HasShape (oddCols (predictRaw constModel2 ["C", "N", "O"] 2 1 false)) 3 1 :=
  claim1_uncertainty_pair_raw_slices constModel2 ["C", "N", "O"] 1 1 false 2
    (by decide) constModel2_rows constModel2_cols rfl

/-- C2: for every prediction run with the uncertainty flag set and a scaler
supplied, the returned means are the scaler's inverse transform of the raw
even-indexed columns and the returned variances are the raw odd-indexed
columns multiplied elementwise by the square of the scaler's per-task
standard deviations. -/
theorem claim2_uncertainty_scaled (model : NNModel) (smis : List String)
    (k ncpu : Nat) (gpu : Bool) (s : StandardScaler)
    (hne : smis ≠ []) :
    (predict model smis (k + 1) ncpu true (some s) gpu).1 =
      Except.ok (PredOutput.withUnc
        (s.inverse_transform (evenCols (predictRaw model smis (k + 1) ncpu gpu)))
        (scaleVariances s.stds (oddCols (predictRaw model smis (k + 1) ncpu gpu)))) := by
  obtain ⟨a, ss, rfl⟩ := List.exists_cons_of_ne_nil hne
  exact predict_fst_eq model a ss k ncpu true (some s) gpu

/-- Witness for C2: one molecule, batch size 1, scaler with mean 5 and
standard deviation 3. -/
theorem claim2_witness :
    (predict constModel2 ["C"] 1 1 true (some ⟨[5], [3]⟩) false).1 =
      Except.ok (PredOutput.withUnc
        ((⟨[5], [3]⟩ : StandardScaler).inverse_transform
          (evenCols (predictRaw constModel2 ["C"] 1 1 false)))
        (scaleVariances (⟨[5], [3]⟩ : StandardScaler).stds
          (oddCols (predictRaw constModel2 ["C"] 1 1 false)))) :=
  claim2_uncertainty_scaled constModel2 ["C"] 0 1 false ⟨[5], [3]⟩ (by decide)

/-- C3: for every prediction run with the uncertainty flag unset and a
scaler supplied, the result is the single N×M array obtained by applying
the scaler's inverse transform to the concatenated raw output, where N is
the number of input molecule strings and M the number of tasks. -/
theorem claim3_single_inverse_scaled (model : NNModel) (smis : List String)
    (k ncpu : Nat) (gpu : Bool) (s : StandardScaler) (M : Nat)
    (hne : smis ≠ [])
    (h1 : ∀ b, (model.forward b).length = b.length)
    (h2 : ∀ b, ∀ row ∈ model.forward b, row.length = M)
    (hmeans : s.means.length = M) (hstds : s.stds.length = M) :
    (predict model smis (k + 1) ncpu false (some s) gpu).1 =
      Except.ok (PredOutput.single
        (s.inverse_transform (predictRaw model smis (k + 1) ncpu gpu))) ∧
    HasShape (s.inverse_transform (predictRaw model smis (k + 1) ncpu gpu))
      smis.length M := by
  obtain ⟨a, ss, rfl⟩ := List.exists_cons_of_ne_nil hne
  exact ⟨predict_fst_eq model a ss k ncpu false (some s) gpu,
    inverse_transform_shape s _ _ _
      (predictRaw_shape model (a :: ss) k ncpu gpu M h1 h2) hmeans hstds⟩

/-- Witness for C3: two molecules, batch size 1, a two-task scaler. -/
theorem claim3_witness :
    (predict constModel2 ["C", "N"] 1 1 false (some ⟨[5, 6], [3, 4]⟩) false).1 =
      Except.ok (PredOutput.single
        ((⟨[5, 6], [3, 4]⟩ : StandardScaler).inverse_transform
          (predictRaw constModel2 ["C", "N"] 1 1 false))) ∧
    HasShape ((⟨[5, 6], [3, 4]⟩ : StandardScaler).inverse_transform
      (predictRaw constModel2 ["C", "N"] 1 1 false)) 2 2 :=
  claim3_single_inverse_scaled constModel2 ["C", "N"] 0 1 false ⟨[5, 6], [3, 4]⟩ 2
    (by decide) constModel2_rows constModel2_cols rfl rfl

/-- C4: for every prediction run with no scaler supplied, the returned
values are the raw concatenated outputs with no de-normalization: the
single raw array when the uncertainty flag is unset, and the unmodified
even/odd column slices when it is set. -/
theorem claim4_no_scaler_raw (model : NNModel) (smis : List String)
    (k ncpu : Nat) (gpu : Bool) (hne : smis ≠ []) :
    (predict model smis (k + 1) ncpu false none gpu).1 =
      Except.ok (PredOutput.single (predictRaw model smis (k + 1) ncpu gpu)) ∧
    (predict model smis (k + 1) ncpu true none gpu).1 =
      Except.ok (PredOutput.withUnc (evenCols (predictRaw model smis (k + 1) ncpu gpu))
        (oddCols (predictRaw model smis (k + 1) ncpu gpu))) := by
  obtain ⟨a, ss, rfl⟩ := List.exists_cons_of_ne_nil hne
  exact ⟨predict_fst_eq model a ss k ncpu false none gpu,
    predict_fst_eq model a ss k ncpu true none gpu⟩

/-- Witness for C4: one molecule, batch size 1, no scaler. -/
theorem claim4_witness :
    (predict constModel2 ["C"] 1 1 false none false).1 =
      Except.ok (PredOutput.single (predictRaw constModel2 ["C"] 1 1 false)) ∧
    (predict constModel2 ["C"] 1 1 true none false).1 =
      Except.ok (PredOutput.withUnc (evenCols (predictRaw constModel2 ["C"] 1 1 false))
        (oddCols (predictRaw constModel2 ["C"] 1 1 false))) :=
  claim4_no_scaler_raw constModel2 ["C"] 0 1 false (by decide)

/-- C5: for every input list of molecule strings, the dataset built inside
`predict` has exactly one datapoint per input string, each wrapping its
string `smi` as the single-element list `[smi]`, in input order. -/
theorem claim5_dataset_construction (smis : List String) :
    (predictDataset smis).length = smis.length ∧
    ∀ i : Nat, (predictDataset smis)[i]? = (smis[i]?).map fun smi => [smi] := by
  refine ⟨by simp [predictDataset], fun i => ?_⟩
  simp [predictDataset]

/-- C6: for every non-empty input of N molecule strings (and a positive
batch size and a model producing one output row per datapoint), the
pipeline succeeds and every array it returns has exactly N rows, the
per-batch outputs being concatenated in loader order. -/
theorem claim6_row_count (model : NNModel) (smis : List String)
    (k ncpu : Nat) (u : Bool) (sc : Option StandardScaler) (gpu : Bool)
    (hne : smis ≠ [])
    (h1 : ∀ b, (model.forward b).length = b.length) :
    ∃ o, (predict model smis (k + 1) ncpu u sc gpu).1 = Except.ok o ∧
      o.rowsEq smis.length := by
  obtain ⟨a, ss, rfl⟩ := List.exists_cons_of_ne_nil hne
  have hraw := predictRaw_rows model (a :: ss) k ncpu gpu h1
  refine ⟨_, predict_fst_eq model a ss k ncpu u sc gpu, ?_⟩
  cases u <;> cases sc <;>
    simp [PredOutput.rowsEq, StandardScaler.inverse_transform, scaleVariances,
      evenCols, oddCols, hraw]

/-- Witness for C6: three molecules, batch size 2, uncertainty on, with a
scaler. -/
theorem claim6_witness :
    ∃ o, (predict constModel2 ["C", "N", "O"] 2 1 true (some ⟨[5, 6], [3, 4]⟩) false).1 =
      Except.ok o ∧ o.rowsEq 3 :=
  claim6_row_count constModel2 ["C", "N", "O"] 1 1 true (some ⟨[5, 6], [3, 4]⟩) false
    (by decide) constModel2_rows

/-- C7: every forward pass performed by `_predict` happens with gradient
tracking disabled and with the model in evaluation mode, and `_predict`
leaves the model's parameters unchanged: it is inference only. -/
theorem claim7_inference_only (model : NNModel) (loader : List (List MoleculeDatapoint))
    (u : Bool) (sc : Option StandardScaler) :
    (∀ c ∈ (_predict model loader u sc).2.2,
        c.gradEnabled = false ∧ c.training = false) ∧
    ((_predict model loader u sc).2.1).params = model.params ∧
    ((_predict model loader u sc).2.1).training = false := by
  refine ⟨?_, ?_, ?_⟩
  · intro c hc
    rw [_predict_calls, List.mem_map] at hc
    obtain ⟨b, _, rfl⟩ := hc
    exact ⟨rfl, rfl⟩
  · rw [_predict_model]
    rfl
  · rw [_predict_model]
    rfl

/-- Witness for C7: a two-batch loader. -/
theorem claim7_witness :
    (∀ c ∈ (_predict constModel2 [[["C"]], [["N"]]] true none).2.2,
        c.gradEnabled = false ∧ c.training = false) ∧
    ((_predict constModel2 [[["C"]], [["N"]]] true none).2.1).params = constModel2.params ∧
    ((_predict constModel2 [[["C"]], [["N"]]] true none).2.1).training = false :=
  claim7_inference_only constModel2 [[["C"]], [["N"]]] true none

/-- C8: for the empty input, the loader yields no batches, so
`np.concatenate` is applied to an empty sequence and prediction fails with
its error instead of returning an empty array. -/
theorem claim8_empty_input_error (model : NNModel) (bs ncpu : Nat) (u : Bool)
    (sc : Option StandardScaler) (gpu : Bool) :
    (predict model [] bs ncpu u sc gpu).1 =
      Except.error "need at least one array to concatenate" := rfl

/-- C9: with the uncertainty flag set and an odd number M of output
columns, the column slicing still succeeds and the returned means have
M/2 + 1 columns while the returned variances have M/2 columns, so the
means have exactly one more column than the variances. -/
theorem claim9_odd_columns (model : NNModel) (smis : List String)
    (k ncpu : Nat) (gpu : Bool) (M : Nat)
    (hne : smis ≠ [])
    (h1 : ∀ b, (model.forward b).length = b.length)
    (h2 : ∀ b, ∀ row ∈ model.forward b, row.length = M)
    (hM : M % 2 = 1) :
    (predict model smis (k + 1) ncpu true none gpu).1 =
      Except.ok (PredOutput.withUnc (evenCols (predictRaw model smis (k + 1) ncpu gpu))
        (oddCols (predictRaw model smis (k + 1) ncpu gpu))) ∧
    HasShape (evenCols (predictRaw model smis (k + 1) ncpu gpu)) smis.length (M / 2 + 1) ∧
    HasShape (oddCols (predictRaw model smis (k + 1) ncpu gpu)) smis.length (M / 2) := by
  obtain ⟨a, ss, rfl⟩ := List.exists_cons_of_ne_nil hne
  refine ⟨predict_fst_eq model a ss k ncpu true none gpu, ?_, ?_⟩
  · have h := evenCols_shape _ _ _ (predictRaw_shape model (a :: ss) k ncpu gpu M h1 h2)
    rwa [show (M + 1) / 2 = M / 2 + 1 by omega] at h
  · exact oddCols_shape _ _ _ (predictRaw_shape model (a :: ss) k ncpu gpu M h1 h2)

/-- Witness for C9: one molecule and a model with three output columns. -/
theorem claim9_witness :
    (predict constModel3 ["C"] 1 1 true none false).1 =
      Except.ok (PredOutput.withUnc (evenCols (predictRaw constModel3 ["C"] 1 1 false))
        (oddCols (predictRaw constModel3 ["C"] 1 1 false))) ∧
    HasShape (evenCols (predictRaw constModel3 ["C"] 1 1 false)) 1 2 ∧
    HasShape (oddCols (predictRaw constModel3 ["C"] 1 1 false)) 1 1 :=
  claim9_odd_columns constModel3 ["C"] 0 1 false 3
    (by decide) constModel3_rows constModel3_cols rfl

/-- C10: `predict` leaves a lasting mark on the model state it hands back:
the model is always switched to evaluation mode, and when `use_gpu` is set
it lives on GPU device 0 afterwards (its parameters are untouched). -/
theorem claim10_model_mutation (model : NNModel) (smis : List String)
    (bs ncpu : Nat) (u : Bool) (sc : Option StandardScaler) (gpu : Bool) :
    ((predict model smis bs ncpu u sc gpu).2.1).training = false ∧
    ((predict model smis bs ncpu u sc gpu).2.1).device =
      (if gpu then some 0 else model.device) ∧
    ((predict model smis bs ncpu u sc gpu).2.1).params = model.params := by
  have hp : (predict model smis bs ncpu u sc gpu).2.1 =
      (if gpu then model.to 0 else model).eval :=
    _predict_model (if gpu then model.to 0 else model)
      (MoleculeDataLoader (predictDataset smis) bs ncpu) u sc
  refine ⟨?_, ?_, ?_⟩ <;> rw [hp] <;> cases gpu <;> rfl

end Molpal
